import Mathlib

/-
Shallow embedding of the rpc server (server.go: Server.ServeHTTP,
serviceMap.register, serviceMap.get, codec selection and the hook
lifecycle), together with theorems settling the frozen claims.

Modelling conventions:
- Go reflect types are modelled by the inductive GoType, recording only
  what the registration filter inspects: pointer structure, the type
  name and the package path of the base named type.
- Go maps keyed by strings are modelled as association lists with
  insert-replaces-existing-key semantics, so list length equals map size.
- unicode.IsUpper and strings.ToLower are modelled on the ASCII range,
  which is faithful for all identifiers and content types the claims
  mention.
- The codec, the per-request codec request and the invoked service
  method are external collaborators; their outcomes (method-name
  extraction, argument decode, method call result, response encode) are
  inputs to the dispatcher model (the Oracle structure), exactly the
  points where ServeHTTP branches on an error value.
- ServeHTTP is modelled as a pure function from server state, request
  and oracle to the final HTTP status and the ordered trace of
  observable events (error writes, hook invocations, the method call,
  the response write).  Go writes status 200 implicitly on the success
  path; the model returns 200 there.
-/

set_option autoImplicit false

namespace Rpc

/-- A Go reflect.Type as far as the registration filter inspects it:
either a pointer type or a named (possibly builtin) base type with a
name and a package path (builtins have empty package path). -/
inductive GoType where
  | ptr (elem : GoType)
  | named (typeName : String) (goPkgPath : String)
deriving DecidableEq, Repr

/-- reflect.TypeOf of the error interface (builtin: empty package path). -/
def typeOfError : GoType := .named "error" ""

/-- reflect.TypeOf of http.Request. -/
def typeOfRequest : GoType := .named "Request" "net/http"

/-- strings.Split for a one-character separator (the only separators
the source uses are the dot of serviceMap.get and the semicolon of the
Content-Type stripping), written structurally over the character list:
every occurrence of the separator ends a component, and components may
be empty.  splitChar sep "" = [""], matching strings.Split. -/
def splitCharAux (sep : Char) : List Char → List Char → List String
  | [], acc => [String.mk acc.reverse]
  | c :: cs, acc =>
    if c = sep then String.mk acc.reverse :: splitCharAux sep cs []
    else splitCharAux sep cs (c :: acc)

def splitChar (sep : Char) (s : String) : List String :=
  splitCharAux sep s.data []

/-- strings.ToLower, on the ASCII range, written structurally. -/
def toLowerStr (s : String) : String :=
  String.mk (s.data.map Char.toLower)

/-- isExported from map.go: the first rune of the name is upper case.
On the empty string utf8.DecodeRuneInString yields RuneError, which is
not upper case, so the result is false. -/
def isExported (name : String) : Bool :=
  match name.data with
  | [] => false
  | c :: _ => c.isUpper

/-- The pointer-stripping loop of isExportedOrBuiltin. -/
def stripPtr : GoType → GoType
  | .ptr t => stripPtr t
  | t => t

/-- reflect.Type.Name of the model: pointer types are unnamed. -/
def GoType.baseName : GoType → String
  | .ptr _ => ""
  | .named n _ => n

/-- reflect.Type.PkgPath of the model: pointer types have empty path. -/
def GoType.basePkgPath : GoType → String
  | .ptr _ => ""
  | .named _ p => p

/-- isExportedOrBuiltin from map.go: strip pointers, then the type is
accepted when its name is exported or its package path is empty. -/
def isExportedOrBuiltin (t : GoType) : Bool :=
  isExported (stripPtr t).baseName || (stripPtr t).basePkgPath == ""

/-- One method of a receiver type, as reflect reports it: the method
name, the package path (empty exactly when the method is exported), the
input types with the receiver at index 0 (reflect.Method.Type.In), and
the output types. -/
structure GoMethod where
  methodName : String
  pkgPath : String
  ins : List GoType
  outs : List GoType
deriving DecidableEq, Repr

/-- serviceMethod from map.go: the stored descriptor (argsType and
replyType are the pointed-to element types). -/
structure ServiceMethod where
  methodName : String
  argsType : GoType
  replyType : GoType
deriving DecidableEq, Repr

/-- The per-method body of the registration loop in serviceMap.register
(map.go): returns the descriptor when the method is accepted into the
method table and none when the loop continues past it. -/
def checkMethod (passReq : Bool) (method : GoMethod) : Option ServiceMethod :=
  let paramOffset : Nat := if passReq then 1 else 0
  -- Method must be exported.
  if method.pkgPath != "" then none
  -- Method needs three ins plus the offset: receiver, (*http.Request,) *args, *reply.
  else if method.ins.length != 3 + paramOffset then none
  -- If passReq, the first argument must be a pointer to http.Request.
  else if passReq && !(match method.ins.get? 1 with
      | some (GoType.ptr e) => e == typeOfRequest
      | _ => false) then none
  else
    -- args must be a pointer (the pattern) and exported or builtin.
    match method.ins.get? (1 + paramOffset) with
    | some (GoType.ptr argsElem) =>
      if !isExportedOrBuiltin (GoType.ptr argsElem) then none
      else
        -- reply must be a pointer (the pattern) and exported or builtin.
        match method.ins.get? (2 + paramOffset) with
        | some (GoType.ptr replyElem) =>
          if !isExportedOrBuiltin (GoType.ptr replyElem) then none
          else
            -- Method needs one out: error.
            match method.outs with
            | [out0] =>
              if out0 != typeOfError then none
              else some { methodName := method.methodName
                          argsType := argsElem
                          replyType := replyElem }
            | _ => none
        | _ => none
    | _ => none

/-- Association-list lookup, modelling Go map indexing. -/
def lookupA {α : Type} : List (String × α) → String → Option α
  | [], _ => none
  | (k2, v) :: rest, k => if k2 == k then some v else lookupA rest k

/-- Association-list insert with replacement, modelling Go map assignment. -/
def insertA {α : Type} : List (String × α) → String → α → List (String × α)
  | [], k, v => [(k, v)]
  | (k2, v2) :: rest, k, v =>
      if k2 == k then (k, v) :: rest else (k2, v2) :: insertA rest k v

/-- One iteration of the method-discovery loop: insert the method when
checkMethod accepts it, otherwise continue. -/
def regStep (passReq : Bool) (acc : List (String × ServiceMethod))
    (method : GoMethod) : List (String × ServiceMethod) :=
  match checkMethod passReq method with
  | some sm => insertA acc method.methodName sm
  | none => acc

/-- The method-discovery loop of serviceMap.register: fold checkMethod
over the method set of the receiver type, inserting accepted methods
under their names. -/
def buildMethods (passReq : Bool) (methods : List GoMethod) :
    List (String × ServiceMethod) :=
  methods.foldl (regStep passReq) []

/-- The receiver of a registration call, as reflection reports it:
the name of reflect.Indirect(rcvr).Type() (empty for unnamed types),
the string form of the receiver type (used only in an error message),
and the method set of the receiver type. -/
structure Receiver where
  typeName : String
  typeString : String
  methods : List GoMethod
deriving DecidableEq, Repr

/-- service from map.go (the rcvr value itself is opaque to the
dispatcher and is not modelled). -/
structure Service where
  serviceName : String
  passReq : Bool
  methods : List (String × ServiceMethod)
deriving DecidableEq, Repr

/-- Registration-time errors of serviceMap.register, by the trigger of
each fmt.Errorf site; the string payload is the name the message quotes. -/
inductive RegisterError where
  | invalidServiceName (name : String)
  | noSuitableMethods (name : String)
  | duplicateServiceName (name : String)
deriving DecidableEq, Repr

/-- serviceMap.services, the registry map. -/
abbrev ServiceRegistry := List (String × Service)

/-- serviceMap.register from map.go.  Returns the resulting registry
and the optional error; every error path leaves the registry unchanged.
The check of the duplicate name and the insertion happen inside one
mutex-guarded critical section in the source and are modelled as a
single state transition.  The source branch creating the map when it is
nil is the empty-list case here, where the duplicate check trivially
passes. -/
def register (m : ServiceRegistry) (rcvr : Receiver) (name : String)
    (passReq : Bool) : ServiceRegistry × Option RegisterError :=
  let sname := if name = "" then rcvr.typeName else name
  if name = "" ∧ isExported rcvr.typeName = false then
    (m, some (.invalidServiceName rcvr.typeName))
  else if sname = "" then
    (m, some (.invalidServiceName rcvr.typeString))
  else
    let methods := buildMethods passReq rcvr.methods
    if methods = [] then
      (m, some (.noSuitableMethods sname))
    else if (lookupA m sname).isSome = true then
      (m, some (.duplicateServiceName sname))
    else
      (insertA m sname
        { serviceName := sname, passReq := passReq, methods := methods }, none)

/-- The request-level error taxonomy of server.go, by constructor site;
string payloads carry what the source formats into the message. -/
inductive RpcError where
  | methodNotAllowed (verb : String)
  | unsupportedMediaType (contentType : String)
  | codecRequestMethod (msg : String)
  | malformedMethodName (method : String)
  | serviceNotFound (method : String)
  | methodNotFound (method : String)
  | codecReadRequest (msg : String)
  | serviceError (msg : String)
  | codecWriteResponse (msg : String)
deriving DecidableEq, Repr

/-- serviceMap.get from map.go: split the dotted name on every dot,
require exactly two parts, then look up the service and the method. -/
def get (m : ServiceRegistry) (method : String) :
    Except RpcError (Service × ServiceMethod) :=
  match splitChar '.' method with
  | [sPart, mPart] =>
    match lookupA m sPart with
    | none => .error (.serviceNotFound method)
    | some svc =>
      match lookupA svc.methods mPart with
      | none => .error (.methodNotFound method)
      | some sm => .ok (svc, sm)
  | _ => .error (.malformedMethodName method)

instance {ε α : Type} [DecidableEq ε] [DecidableEq α] :
    DecidableEq (Except ε α) := fun a b =>
  match a, b with
  | .ok x, .ok y =>
    if h : x = y then .isTrue (congrArg Except.ok h)
    else .isFalse (fun hc => h (Except.ok.inj hc))
  | .error x, .error y =>
    if h : x = y then .isTrue (congrArg Except.error h)
    else .isFalse (fun hc => h (Except.error.inj hc))
  | .ok _, .error _ => .isFalse (fun hc => Except.noConfusion hc)
  | .error _, .ok _ => .isFalse (fun hc => Except.noConfusion hc)

def exceptIsOk {ε α : Type} : Except ε α → Bool
  | .ok _ => true
  | .error _ => false

/-- Server.HasMethod from server.go. -/
def hasMethod (m : ServiceRegistry) (method : String) : Bool :=
  exceptIsOk (get m method)

/-- A codec is an external collaborator; the model records only its
identity, so that a trace can show which codec wrote a response. -/
abbrev Codec := Nat

/-- An http.Request as far as ServeHTTP inspects it: the verb
(r.Method), the Content-Type header value, and an identity tag standing
for the object instance (replacement requests from the intercept hook
are distinguished by it). -/
structure HttpRequest where
  verb : String
  contentType : String
  id : Nat
deriving DecidableEq, Repr

/-- RequestInfo from server.go (the struct passed to the hooks).
Fields the source leaves at their zero value are none and 0 here. -/
structure RequestInfo where
  method : String
  error : Option RpcError
  request : HttpRequest
  statusCode : Nat
deriving DecidableEq, Repr

/-- Server from server.go.  The before and after hooks are
side-effecting only, so the model records just their presence; the
intercept hook's returned replacement matters, so it is kept as a
function. -/
structure Server where
  codecs : List (String × Codec)
  defaultCodec : Codec
  services : ServiceRegistry
  interceptFunc : Option (RequestInfo → Option HttpRequest)
  hasBeforeFunc : Bool
  hasAfterFunc : Bool
  supportedMethods : List String

/-- NewServer from server.go: empty codec map, the given default codec,
empty registry, no hooks, and POST as the only supported verb. -/
def newServer (defaultCodec : Codec) : Server :=
  { codecs := []
    defaultCodec := defaultCodec
    services := []
    interceptFunc := none
    hasBeforeFunc := false
    hasAfterFunc := false
    supportedMethods := ["POST"] }

/-- Server.RegisterCodec from server.go: keys are lower-cased at
registration time. -/
def registerCodec (s : Server) (codec : Codec) (contentType : String) : Server :=
  { s with codecs := insertA s.codecs (toLowerStr contentType) codec }

/-- The Content-Type stripping of ServeHTTP: cut everything from the
first semicolon on (strings.Index plus slice). -/
def stripContentType (contentType : String) : String :=
  match splitChar ';' contentType with
  | first :: _ => first
  | [] => contentType

/-- The codec-selection branch of ServeHTTP, applied to the already
stripped content type: with an empty type and exactly one registered
codec, that codec (the range loop over a one-entry map); otherwise a
map lookup of the lower-cased type, failing when absent. -/
def selectCodec (codecs : List (String × Codec)) (contentType : String) :
    Option Codec :=
  if contentType == "" && codecs.length == 1 then
    codecs.head?.map Prod.snd
  else
    lookupA codecs (toLowerStr contentType)

/-- The observable actions of one ServeHTTP run, in order:
handleErrorResponse calls (with the HTTP status, the codec whose
CodecRequest writes the error envelope, and the error), hook
invocations, the method call (recording the request instance passed
when the service takes one), the nosniff header write, and the
successful response write. -/
inductive Event where
  | errorResponse (status : Nat) (writerCodec : Codec) (err : RpcError)
  | interceptCalled (info : RequestInfo)
  | beforeCalled (info : RequestInfo)
  | methodCalled (reqPassed : Option HttpRequest)
  | nosniffHeaderSet
  | responseWritten (writerCodec : Codec)
  | afterCalled (info : RequestInfo)
deriving DecidableEq, Repr

/-- The outcomes of the external collaborators of one request: the
codec request's Method(), ReadRequest and WriteResponse results and the
invoked service method's returned error value.  Each is exactly one
branch point of ServeHTTP. -/
structure Oracle where
  methodResult : Except String String
  readResult : Option String
  callResult : Option String
  writeResult : Option String
deriving Repr

/-- The request instance the lifecycle uses after the intercept step:
when an intercept hook is registered it is called with the method name
and the inbound request, and a non-null returned replacement becomes
the request from then on; otherwise the original request is kept. -/
def interceptedReq (s : Server) (r : HttpRequest) (method : String) :
    HttpRequest :=
  match s.interceptFunc with
  | none => r
  | some f =>
    match f { method := method, error := none, request := r,
              statusCode := 0 } with
    | some req => req
    | none => r

/-- The events of the hook-and-call phase of ServeHTTP, in source
order: the intercept hook call (when registered, with the original
request), the before hook call (when registered, with the possibly
replaced request), then the method call (receiving the possibly
replaced request exactly when the service takes one). -/
def preEvents (s : Server) (r : HttpRequest) (method : String)
    (passReq : Bool) : List Event :=
  (match s.interceptFunc with
   | none => []
   | some _ =>
     [.interceptCalled
       { method := method, error := none, request := r, statusCode := 0 }]) ++
  (if s.hasBeforeFunc then
    [.beforeCalled
      { method := method, error := none,
        request := interceptedReq s r method, statusCode := 0 }]
   else []) ++
  [.methodCalled (if passReq then some (interceptedReq s r method) else none)]

/-- Server.ServeHTTP from server.go, as a pure function to the final
HTTP status and the ordered event trace. -/
def serveHTTP (s : Server) (r : HttpRequest) (o : Oracle) : Nat × List Event :=
  if !(s.supportedMethods.contains r.verb) then
    (405, [.errorResponse 405 s.defaultCodec (.methodNotAllowed r.verb)])
  else
    let contentType := stripContentType r.contentType
    match selectCodec s.codecs contentType with
    | none =>
      (415, [.errorResponse 415 s.defaultCodec (.unsupportedMediaType contentType)])
    | some codec =>
      match o.methodResult with
      | .error msg => (200, [.errorResponse 200 codec (.codecRequestMethod msg)])
      | .ok method =>
        match get s.services method with
        | .error errGet => (200, [.errorResponse 200 codec errGet])
        | .ok (serviceSpec, _methodSpec) =>
          match o.readResult with
          | some msg => (200, [.errorResponse 200 codec (.codecReadRequest msg)])
          | none =>
            let pre := preEvents s r method serviceSpec.passReq
            match o.callResult with
            | some msg =>
              (200, pre ++ [.errorResponse 200 codec (.serviceError msg)])
            | none =>
              match o.writeResult with
              | some msg =>
                (200, pre ++ [.nosniffHeaderSet,
                              .errorResponse 200 codec (.codecWriteResponse msg)])
              | none =>
                let afterEvents : List Event :=
                  if s.hasAfterFunc then
                    [.afterCalled
                      { method := method, error := none,
                        request := interceptedReq s r method,
                        statusCode := 200 }]
                  else []
                (200, pre ++ [.nosniffHeaderSet, .responseWritten codec]
                          ++ afterEvents)

/-
Spec-side restatements.  The following definitions transcribe the
wording of the claims (not the source) and are compared with the
source-derived definitions above.
-/

/-- Spec wording, C1: the parameter list has exactly 2 non-receiver
entries when passReq is false, 3 when true (the receiver sits at index
0 of ins). -/
def specCondParamCount (passReq : Bool) (m : GoMethod) : Bool :=
  m.ins.length - 1 == (if passReq then 3 else 2)

/-- Spec wording, C1: when passReq is true, the first non-receiver
parameter is exactly a pointer to the inbound-request type. -/
def specCondFirstParam (passReq : Bool) (m : GoMethod) : Bool :=
  !passReq || m.ins.get? 1 == some (GoType.ptr typeOfRequest)

/-- Spec wording, C1: a parameter that is a pointer to a publicly
visible (or built-in) payload type. -/
def isPtrToVisiblePayload : Option GoType → Bool
  | some (GoType.ptr base) => isExportedOrBuiltin base
  | _ => false

/-- Spec wording, C1: the argument and reply parameters are pointers to
publicly visible (or built-in) payload types. -/
def specCondArgReply (passReq : Bool) (m : GoMethod) : Bool :=
  isPtrToVisiblePayload (m.ins.get? (if passReq then 2 else 1)) &&
  isPtrToVisiblePayload (m.ins.get? (if passReq then 3 else 2))

/-- Spec wording, C1: the member returns exactly one value, of the
error type. -/
def specCondReturn (m : GoMethod) : Bool :=
  m.outs == [typeOfError]

/-- Spec wording, C1: the conjunction of the shape conditions imposed
on a publicly visible member. -/
def specSuitable (passReq : Bool) (m : GoMethod) : Bool :=
  specCondParamCount passReq m && specCondFirstParam passReq m &&
  specCondArgReply passReq m && specCondReturn m

/-- A fully successful request: the verb is allowed, a codec is
negotiated, the method name is extracted and resolves, and the decode,
the call and the encode all succeed.  These are exactly the branch
points of serveHTTP. -/
def fullSuccess (s : Server) (r : HttpRequest) (o : Oracle) : Bool :=
  s.supportedMethods.contains r.verb &&
  (selectCodec s.codecs (stripContentType r.contentType)).isSome &&
  (match o.methodResult with
   | .error _ => false
   | .ok method => exceptIsOk (get s.services method)) &&
  o.readResult.isNone && o.callResult.isNone && o.writeResult.isNone

/-- Recognizer of after-hook invocations in a trace. -/
def isAfterEvent : Event → Bool
  | .afterCalled _ => true
  | _ => false

/-- Recognizer of the InvalidServiceName registration outcome. -/
def isInvalidNameErr : Option RegisterError → Bool
  | some (.invalidServiceName _) => true
  | _ => false

/-
Concrete example values, used by the witness and counterexample
theorems below.
-/

def exArgsType : GoType := .named "Args" "main"

def exReplyType : GoType := .named "Reply" "main"

/-- A method of shape Add(*Args, *Reply) error, suitable when passReq
is false. -/
def exMethodTCP : GoMethod :=
  { methodName := "Add"
    pkgPath := ""
    ins := [.ptr (.named "Calc" "main"), .ptr exArgsType, .ptr exReplyType]
    outs := [typeOfError] }

/-- A method of shape Add(*http.Request, *Args, *Reply) error, suitable
when passReq is true. -/
def exMethodHTTP : GoMethod :=
  { methodName := "Add"
    pkgPath := ""
    ins := [.ptr (.named "Calc" "main"), .ptr typeOfRequest,
            .ptr exArgsType, .ptr exReplyType]
    outs := [typeOfError] }

def exReceiverTCP : Receiver :=
  { typeName := "Calc", typeString := "*main.Calc", methods := [exMethodTCP] }

def exReceiverHTTP : Receiver :=
  { typeName := "Calc", typeString := "*main.Calc", methods := [exMethodHTTP] }

/-- A receiver with an empty method set: nothing survives the filter. -/
def exBareReceiver : Receiver :=
  { typeName := "Calc", typeString := "*main.Calc", methods := [] }

/-- A receiver whose type name is not exported. -/
def exUnexportedReceiver : Receiver :=
  { typeName := "calc", typeString := "*main.calc", methods := [exMethodTCP] }

def exServiceMethod : ServiceMethod :=
  { methodName := "Add", argsType := exArgsType, replyType := exReplyType }

def exService : Service :=
  { serviceName := "Calc", passReq := false
    methods := [("Add", exServiceMethod)] }

def exRegistry : ServiceRegistry := [("Calc", exService)]

def exRequest : HttpRequest :=
  { verb := "POST", contentType := "application/json", id := 1 }

/-- The replacement request an example intercept hook returns. -/
def exReplacement : HttpRequest :=
  { verb := "POST", contentType := "application/json", id := 2 }

/-- A server with one registered codec (identity 1), default codec 0,
the example registry, an intercept hook returning exReplacement, and
before and after hooks present. -/
def exServer : Server :=
  { codecs := [("application/json", 1)]
    defaultCodec := 0
    services := exRegistry
    interceptFunc := some (fun _ => some exReplacement)
    hasBeforeFunc := true
    hasAfterFunc := true
    supportedMethods := ["POST"] }

/-- An all-success oracle naming the example method. -/
def exOracle : Oracle :=
  { methodResult := .ok "Calc.Add"
    readResult := none
    callResult := none
    writeResult := none }

/-- A service that takes the inbound request as first parameter. -/
def exServiceHTTP : Service :=
  { serviceName := "CalcH", passReq := true
    methods := [("Add", exServiceMethod)] }

def exRegistryH : ServiceRegistry := [("CalcH", exServiceHTTP)]

/-- A server over exRegistryH whose intercept hook replaces the
request with exReplacement. -/
def exServerH : Server :=
  { codecs := [("application/json", 1)]
    defaultCodec := 0
    services := exRegistryH
    interceptFunc := some (fun _ => some exReplacement)
    hasBeforeFunc := true
    hasAfterFunc := true
    supportedMethods := ["POST"] }

/-- An all-success oracle naming the request-taking example method. -/
def exOracleH : Oracle :=
  { methodResult := .ok "CalcH.Add"
    readResult := none
    callResult := none
    writeResult := none }

/-
Helper lemmas.
-/

/-- isExportedOrBuiltin looks through the pointer structure, so a
pointer wrapper does not change its verdict. -/
theorem isExportedOrBuiltin_ptr (t : GoType) :
    isExportedOrBuiltin (GoType.ptr t) = isExportedOrBuiltin t := by
  simp [isExportedOrBuiltin, stripPtr]

/-- Lookup after insert: the inserted key maps to the new value and
every other key is unaffected. -/
theorem lookupA_insertA {α : Type} (l : List (String × α)) (k k2 : String)
    (v : α) :
    lookupA (insertA l k v) k2 = if k == k2 then some v else lookupA l k2 := by
  induction l with
  | nil => simp [insertA, lookupA]
  | cons hd tl ih =>
    obtain ⟨k0, v0⟩ := hd
    by_cases h0 : k0 = k
    · subst h0
      by_cases h2 : k0 = k2 <;> simp [insertA, lookupA, h2]
    · by_cases h2 : k0 = k2 <;> by_cases h3 : k = k2 <;>
        simp_all [insertA, lookupA]

/-- An exported name is not empty. -/
theorem isExported_ne_empty (name : String) (h : isExported name = true) :
    name ≠ "" := by
  intro hcon
  subst hcon
  simp [isExported] at h

/-- The method-discovery fold holds a key exactly when the accumulator
already does or some method of that name passes checkMethod. -/
theorem lookupA_foldl_regStep (passReq : Bool) (ms : List GoMethod)
    (acc : List (String × ServiceMethod)) (name : String) :
    (lookupA (ms.foldl (regStep passReq) acc) name).isSome =
      ((lookupA acc name).isSome ||
        ms.any (fun mth =>
          mth.methodName == name && (checkMethod passReq mth).isSome)) := by
  induction ms generalizing acc with
  | nil => simp
  | cons hd tl ih =>
    rw [List.foldl_cons, ih]
    cases hck : checkMethod passReq hd with
    | none => simp [regStep, hck]
    | some sm =>
      by_cases hname : hd.methodName = name
      · simp [regStep, hck, lookupA_insertA, hname]
      · have hb : (hd.methodName == name) = false := by simp [hname]
        simp [regStep, hck, lookupA_insertA, hb]

/-- checkMethod agrees with the spec-worded shape conditions when
passReq is false. -/
theorem checkMethod_false_char (m : GoMethod) :
    (checkMethod false m).isSome = (m.pkgPath == "" && specSuitable false m) := by
  obtain ⟨mn, pp, ins, outs⟩ := m
  by_cases hlen : ins.length = 3
  · obtain ⟨a, b, c, rfl⟩ := List.length_eq_three.mp hlen
    rcases b with be | ⟨bn, bp⟩ <;> rcases c with ce | ⟨cn, cp⟩ <;>
      rcases outs with _ | ⟨o1, _ | ⟨o2, orest⟩⟩ <;>
      simp [checkMethod, specSuitable, specCondParamCount, specCondFirstParam,
            specCondArgReply, specCondReturn, isPtrToVisiblePayload] <;>
      split_ifs <;> simp_all [isExportedOrBuiltin_ptr]
  · have h2 : ¬ (ins.length - 1 = 2) := by omega
    simp [checkMethod, specSuitable, specCondParamCount, hlen, h2]

/-- checkMethod agrees with the spec-worded shape conditions when
passReq is true. -/
theorem checkMethod_true_char (m : GoMethod) :
    (checkMethod true m).isSome = (m.pkgPath == "" && specSuitable true m) := by
  obtain ⟨mn, pp, ins, outs⟩ := m
  by_cases hlen : ins.length = 4
  · rcases ins with _ | ⟨a, rest⟩
    · simp at hlen
    · have hr : rest.length = 3 := by simpa using hlen
      obtain ⟨b, c, d, rfl⟩ := List.length_eq_three.mp hr
      rcases b with be | ⟨bn, bp⟩ <;> rcases c with ce | ⟨cn, cp⟩ <;>
        rcases d with de | ⟨dn, dp⟩ <;>
        rcases outs with _ | ⟨o1, _ | ⟨o2, orest⟩⟩ <;>
        simp [checkMethod, specSuitable, specCondParamCount, specCondFirstParam,
              specCondArgReply, specCondReturn, isPtrToVisiblePayload] <;>
        split_ifs <;> simp_all [isExportedOrBuiltin_ptr]
  · have h2 : ¬ (ins.length - 1 = 3) := by omega
    simp [checkMethod, specSuitable, specCondParamCount, hlen, h2]

/-
Claim theorems.
-/

/-- C1: a member is accepted by the registration filter exactly when it
is publicly visible and satisfies the spec-worded shape conditions
(parameter count by passReq, exact inbound-request first parameter when
required, pointer-to-visible argument and reply payloads, one error
return); and the built method table holds a name exactly when some
member of that name passes those conditions.  Rejected members are
omitted, which is not an error. -/
theorem C1_method_table_filter (passReq : Bool) (mth : GoMethod)
    (ms : List GoMethod) (name : String) :
    ((checkMethod passReq mth).isSome =
      (mth.pkgPath == "" && specSuitable passReq mth)) ∧
    ((lookupA (buildMethods passReq ms) name).isSome =
      ms.any (fun m2 => m2.methodName == name &&
        (m2.pkgPath == "" && specSuitable passReq m2))) := by
  have hchar : ∀ m2 : GoMethod, (checkMethod passReq m2).isSome =
      (m2.pkgPath == "" && specSuitable passReq m2) := by
    intro m2
    cases passReq
    · exact checkMethod_false_char m2
    · exact checkMethod_true_char m2
  refine ⟨hchar mth, ?_⟩
  rw [buildMethods, lookupA_foldl_regStep]
  simp only [hchar]
  simp [lookupA]

/-- C2 counterexample: the dotted name "A." does not split into two
non-empty components, yet resolution against the empty registry reports
ServiceNotFound, not MalformedMethodName, because the source checks
only the part count, not non-emptiness. -/
theorem C2_counterexample :
    splitChar '.' "A." = ["A", ""] ∧
    get ([] : ServiceRegistry) "A." = .error (.serviceNotFound "A.") ∧
    get ([] : ServiceRegistry) "A." ≠ .error (.malformedMethodName "A.") := by
  refine ⟨by decide, by decide, by decide⟩

/-- C2 (amended): resolve fails with MalformedMethodName exactly when
the name does not split into exactly two components on the dot
separator (components may be empty); with exactly two components it
fails with ServiceNotFound when the first matches no service, fails
with MethodNotFound when the second matches no method of that service,
and returns the matching pair otherwise. -/
theorem C2_resolution (m : ServiceRegistry) (q : String) :
    ((splitChar '.' q).length ≠ 2 → get m q = .error (.malformedMethodName q)) ∧
    (get m q = .error (.malformedMethodName q) → (splitChar '.' q).length ≠ 2) ∧
    (∀ sPart mPart, splitChar '.' q = [sPart, mPart] →
      (lookupA m sPart = none → get m q = .error (.serviceNotFound q)) ∧
      (∀ svc, lookupA m sPart = some svc →
        (lookupA svc.methods mPart = none →
          get m q = .error (.methodNotFound q)) ∧
        (∀ sm, lookupA svc.methods mPart = some sm →
          get m q = .ok (svc, sm)))) := by
  rcases hsplit : splitChar '.' q with _ | ⟨p1, _ | ⟨p2, _ | ⟨p3, t3⟩⟩⟩
  · simp [get, hsplit]
  · simp [get, hsplit]
  · refine ⟨by simp [hsplit], ?_, ?_⟩
    · rcases hl1 : lookupA m p1 with _ | svc
      · simp [get, hsplit, hl1]
      · rcases hl2 : lookupA svc.methods p2 with _ | sm <;>
          simp [get, hsplit, hl1, hl2]
    · intro sPart mPart heq
      obtain ⟨rfl, rfl⟩ : p1 = sPart ∧ p2 = mPart := by
        simpa using heq
      refine ⟨?_, ?_⟩
      · intro hl1
        simp [get, hsplit, hl1]
      · intro svc hl1
        refine ⟨?_, ?_⟩
        · intro hl2
          simp [get, hsplit, hl1, hl2]
        · intro sm hl2
          simp [get, hsplit, hl1, hl2]
  · simp [get, hsplit]

/-- C2 witness: the amended characterization applied to a concrete
registry reproduces the spec test vector: success, ServiceNotFound,
MethodNotFound and MalformedMethodName. -/
theorem C2_resolution_witness :
    get exRegistry "Calc.Add" = .ok (exService, exServiceMethod) ∧
    get exRegistry "NoSuchService.Add" =
      .error (.serviceNotFound "NoSuchService.Add") ∧
    get exRegistry "Calc.NoSuchMethod" =
      .error (.methodNotFound "Calc.NoSuchMethod") ∧
    get exRegistry "OneToken" = .error (.malformedMethodName "OneToken") := by
  refine ⟨?_, ?_, ?_, ?_⟩
  · exact (((C2_resolution exRegistry "Calc.Add").2.2 "Calc" "Add"
      (by decide)).2 exService (by decide)).2 exServiceMethod (by decide)
  · exact ((C2_resolution exRegistry "NoSuchService.Add").2.2 "NoSuchService"
      "Add" (by decide)).1 (by decide)
  · exact (((C2_resolution exRegistry "Calc.NoSuchMethod").2.2 "Calc"
      "NoSuchMethod" (by decide)).2 exService (by decide)).1 (by decide)
  · exact (C2_resolution exRegistry "OneToken").1 (by decide)

/-- When registration succeeds, the service is installed in the
registry under the resolved name, carrying that name and the built
method table. -/
theorem register_ok_lookup (m : ServiceRegistry) (rcvr : Receiver)
    (name : String) (passReq : Bool)
    (hok : (register m rcvr name passReq).2 = none) :
    lookupA (register m rcvr name passReq).1
        (if name = "" then rcvr.typeName else name) =
      some { serviceName := if name = "" then rcvr.typeName else name
             passReq := passReq
             methods := buildMethods passReq rcvr.methods } := by
  simp only [register] at hok ⊢
  by_cases h1 : name = "" ∧ isExported rcvr.typeName = false
  · simp [h1] at hok
  · rw [if_neg h1] at hok ⊢
    by_cases h2 : (if name = "" then rcvr.typeName else name) = ""
    · simp [h2] at hok
    · rw [if_neg h2] at hok ⊢
      by_cases h3 : buildMethods passReq rcvr.methods = []
      · simp [h3] at hok
      · rw [if_neg h3] at hok ⊢
        by_cases h4 : (lookupA m (if name = "" then rcvr.typeName else name)).isSome = true
        · simp [h4] at hok
        · rw [if_neg h4] at hok ⊢
          simp [lookupA_insertA]

/-- C3 counterexample: registration with the explicit name "x", which
is non-empty but not publicly visible, succeeds and installs the
service under "x"; the visibility check of the source runs only when
the name is derived from the receiver type name. -/
theorem C3_counterexample :
    isExported "x" = false ∧
    (register [] exReceiverTCP "x" false).2 = none ∧
    lookupA (register [] exReceiverTCP "x" false).1 "x" ≠ none := by
  refine ⟨by decide, by decide, by decide⟩

/-- C3 (amended): the service name is the explicit name when non-empty
and the receiver type name otherwise; registration fails with
InvalidServiceName exactly when the explicit name is empty and the
derived type name is not publicly visible (which covers the empty
derived name); an explicit non-empty name is accepted without a
visibility check, and on success the service is installed under the
resolved name. -/
theorem C3_service_name (m : ServiceRegistry) (rcvr : Receiver)
    (name : String) (passReq : Bool) :
    (isInvalidNameErr (register m rcvr name passReq).2 = true ↔
      (name = "" ∧ isExported rcvr.typeName = false)) ∧
    ((register m rcvr name passReq).2 = none →
      ∃ svc : Service,
        lookupA (register m rcvr name passReq).1
          (if name = "" then rcvr.typeName else name) = some svc ∧
        svc.serviceName = (if name = "" then rcvr.typeName else name)) := by
  constructor
  · by_cases hname : name = ""
    · subst hname
      by_cases hexp : isExported rcvr.typeName
      · have hne : rcvr.typeName ≠ "" := isExported_ne_empty _ hexp
        simp only [register]
        split_ifs <;> simp_all [isInvalidNameErr]
      · simp only [register]
        split_ifs <;> simp_all [isInvalidNameErr]
    · simp only [register]
      split_ifs <;> simp_all [isInvalidNameErr]
  · intro hok
    exact ⟨_, register_ok_lookup m rcvr name passReq hok, rfl⟩

/-- C3 witness: with the empty explicit name and a receiver type name
that is not exported, registration fails with InvalidServiceName; with
a non-empty explicit name registration succeeds and installs the
service under that name. -/
theorem C3_service_name_witness :
    isInvalidNameErr (register [] exUnexportedReceiver "" false).2 = true ∧
    ∃ svc : Service,
      lookupA (register [] exReceiverTCP "Arith" false).1 "Arith" = some svc ∧
      svc.serviceName = "Arith" := by
  constructor
  · exact (C3_service_name [] exUnexportedReceiver "" false).1.mpr
      ⟨rfl, by decide⟩
  · simpa using (C3_service_name [] exReceiverTCP "Arith" false).2 (by decide)

/-- A disallowed verb short-circuits to a lone 405 error write through
the default codec. -/
theorem serveHTTP_not_allowed (s : Server) (r : HttpRequest) (o : Oracle)
    (h : s.supportedMethods.contains r.verb = false) :
    serveHTTP s r o =
      (405, [.errorResponse 405 s.defaultCodec (.methodNotAllowed r.verb)]) := by
  have hmem : ¬ (r.verb ∈ s.supportedMethods) := by simpa using h
  simp [serveHTTP, hmem]

/-- A failed codec negotiation short-circuits to a lone 415 error write
through the default codec. -/
theorem serveHTTP_unsupported (s : Server) (r : HttpRequest) (o : Oracle)
    (hverb : s.supportedMethods.contains r.verb = true)
    (hsel : selectCodec s.codecs (stripContentType r.contentType) = none) :
    serveHTTP s r o =
      (415, [.errorResponse 415 s.defaultCodec
        (.unsupportedMediaType (stripContentType r.contentType))]) := by
  have hmem : r.verb ∈ s.supportedMethods := by simpa using hverb
  simp [serveHTTP, hmem, hsel]

/-- Once the verb is allowed and a codec is negotiated, the final HTTP
status is 200 on every path, success or error. -/
theorem serveHTTP_ok_status (s : Server) (r : HttpRequest) (o : Oracle)
    (hverb : s.supportedMethods.contains r.verb = true)
    (c : Codec)
    (hsel : selectCodec s.codecs (stripContentType r.contentType) = some c) :
    (serveHTTP s r o).1 = 200 := by
  have hmem : r.verb ∈ s.supportedMethods := by simpa using hverb
  cases hm : o.methodResult with
  | error msg => simp [serveHTTP, hmem, hsel, hm]
  | ok mname =>
    cases hget : get s.services mname with
    | error e => simp [serveHTTP, hmem, hsel, hm, hget]
    | ok pair =>
      obtain ⟨svc, sm⟩ := pair
      cases hread : o.readResult with
      | some msg => simp [serveHTTP, hmem, hsel, hm, hget, hread]
      | none =>
        cases hcall : o.callResult with
        | some msg => simp [serveHTTP, hmem, hsel, hm, hget, hread, hcall]
        | none =>
          cases hw : o.writeResult <;>
            simp [serveHTTP, hmem, hsel, hm, hget, hread, hcall, hw]

/-- C4: the status is 405 exactly when the verb is disallowed, 415
exactly when the verb is allowed but codec negotiation fails, and 200
on every other path regardless of the oracle outcomes (method-name
extraction failure, resolution failure, decode failure, method error,
encode failure, success); the 405 and 415 responses consist of a single
error write before any RPC step. -/
theorem C4_http_statuses (s : Server) (r : HttpRequest) (o : Oracle) :
    ((serveHTTP s r o).1 = 405 ↔ s.supportedMethods.contains r.verb = false) ∧
    ((serveHTTP s r o).1 = 415 ↔
      (s.supportedMethods.contains r.verb = true ∧
       selectCodec s.codecs (stripContentType r.contentType) = none)) ∧
    (s.supportedMethods.contains r.verb = true →
      ∀ c : Codec, selectCodec s.codecs (stripContentType r.contentType) = some c →
        (serveHTTP s r o).1 = 200) ∧
    ((serveHTTP s r o).1 = 405 ∨ (serveHTTP s r o).1 = 415 →
      ∃ err : RpcError,
        (serveHTTP s r o).2 =
          [Event.errorResponse (serveHTTP s r o).1 s.defaultCodec err]) := by
  by_cases hverb : s.supportedMethods.contains r.verb
  · have hmem : r.verb ∈ s.supportedMethods := by simpa using hverb
    cases hsel : selectCodec s.codecs (stripContentType r.contentType) with
    | none =>
      rw [serveHTTP_unsupported s r o hverb hsel]
      exact ⟨by simp [hmem], by simp [hmem, hsel], by simp [hsel],
        fun _ => ⟨_, rfl⟩⟩
    | some c =>
      have h200 := serveHTTP_ok_status s r o hverb c hsel
      rw [h200]
      exact ⟨by simp [hmem], by simp [hmem, hsel], by simp, by simp⟩
  · have hvf : s.supportedMethods.contains r.verb = false := by
      simpa using hverb
    have hnmem : r.verb ∉ s.supportedMethods := by simpa using hverb
    rw [serveHTTP_not_allowed s r o hvf]
    exact ⟨by simp [hnmem], by simp [hnmem], by simp [hnmem],
      fun _ => ⟨_, rfl⟩⟩

/-- C4 witness: with the example server, a POST with a matching codec
finishes with status 200 and a GET finishes with status 405. -/
theorem C4_http_statuses_witness :
    (serveHTTP exServer exRequest exOracle).1 = 200 ∧
    (serveHTTP exServer { exRequest with verb := "GET" } exOracle).1 = 405 := by
  constructor
  · exact (C4_http_statuses exServer exRequest exOracle).2.2.1 (by decide) 1
      (by decide)
  · exact ((C4_http_statuses exServer { exRequest with verb := "GET" }
      exOracle).1).mpr (by decide)

/-- C10: on both transport-policy failure paths the error envelope is
written through a codec request of the default codec handed to the
constructor, never through a codec negotiated from the Content-Type
header. -/
theorem C10_default_codec_for_policy_errors (s : Server) (r : HttpRequest)
    (o : Oracle) :
    (s.supportedMethods.contains r.verb = false →
      (serveHTTP s r o).2 =
        [.errorResponse 405 s.defaultCodec (.methodNotAllowed r.verb)]) ∧
    (s.supportedMethods.contains r.verb = true →
      selectCodec s.codecs (stripContentType r.contentType) = none →
      (serveHTTP s r o).2 =
        [.errorResponse 415 s.defaultCodec
          (.unsupportedMediaType (stripContentType r.contentType))]) := by
  constructor
  · intro h
    rw [serveHTTP_not_allowed s r o h]
  · intro hverb hsel
    rw [serveHTTP_unsupported s r o hverb hsel]

/-- C10 witness: the example server registers codec 1 for the request
content type but has default codec 0; a GET and an unknown content type
both produce envelopes written by codec 0, not the negotiated codec. -/
theorem C10_default_codec_witness :
    (serveHTTP exServer { exRequest with verb := "GET" } exOracle).2 =
      [.errorResponse 405 0 (.methodNotAllowed "GET")] ∧
    (serveHTTP exServer { exRequest with contentType := "text/xml" } exOracle).2 =
      [.errorResponse 415 0 (.unsupportedMediaType "text/xml")] := by
  constructor
  · exact ((C10_default_codec_for_policy_errors exServer
      { exRequest with verb := "GET" } exOracle).1 (by decide)).trans (by decide)
  · exact ((C10_default_codec_for_policy_errors exServer
      { exRequest with contentType := "text/xml" } exOracle).2 (by decide)
      (by decide)).trans (by decide)

/-- C5 counterexample: two codecs are registered, one of them under the
empty content-type string; a request with an empty Content-Type header
then selects that codec instead of failing with UnsupportedMediaType,
against the claim that selection fails whenever two or more codecs are
registered and the header is empty. -/
theorem C5_counterexample :
    (registerCodec (registerCodec (newServer 0) 7 "") 8
        "application/json").codecs.length = 2 ∧
    selectCodec
      (registerCodec (registerCodec (newServer 0) 7 "") 8
        "application/json").codecs
      (stripContentType "") = some 7 := by
  refine ⟨by decide, by decide⟩

/-- C5 (amended): with an empty stripped content type and exactly one
registered codec, that codec is selected; with an empty stripped
content type and any other registry size, selection is a lookup of the
empty string in the registry (failing with UnsupportedMediaType exactly
when no codec was registered under the empty content type); with a
non-empty stripped content type, selection is a lookup of its
lower-cased form; and a charset parameter does not change the selected
codec. -/
theorem C5_codec_selection (codecs : List (String × Codec)) (header : String) :
    (∀ k : String, ∀ c : Codec, codecs = [(k, c)] →
      stripContentType header = "" →
      selectCodec codecs (stripContentType header) = some c) ∧
    (stripContentType header = "" → codecs.length ≠ 1 →
      selectCodec codecs (stripContentType header) = lookupA codecs "") ∧
    (stripContentType header ≠ "" →
      selectCodec codecs (stripContentType header) =
        lookupA codecs (toLowerStr (stripContentType header))) ∧
    (selectCodec codecs
        (stripContentType "application/json; charset=utf-8") =
      selectCodec codecs (stripContentType "application/json")) := by
  refine ⟨?_, ?_, ?_, ?_⟩
  · intro k c hcodecs hstrip
    subst hcodecs
    simp [selectCodec, hstrip]
  · intro hstrip hlen
    have h0 : toLowerStr "" = "" := by decide
    simp [selectCodec, hstrip, hlen, h0]
  · intro hstrip
    simp [selectCodec, hstrip]
  · have h1 : stripContentType "application/json; charset=utf-8" =
        "application/json" := by decide
    have h2 : stripContentType "application/json" = "application/json" := by
      decide
    rw [h1, h2]

/-- C5 witness: one codec and an empty header selects it; two codecs
under non-empty types and an empty header fails; the charset parameter
is ignored. -/
theorem C5_codec_selection_witness :
    selectCodec [("application/json", 1)] (stripContentType "") = some 1 ∧
    selectCodec [("application/json", 1), ("text/xml", 2)]
      (stripContentType "") = none ∧
    selectCodec [("application/json", 1)]
      (stripContentType "application/json; charset=utf-8") = some 1 := by
  refine ⟨?_, ?_, ?_⟩
  · exact (C5_codec_selection [("application/json", 1)] "").1
      "application/json" 1 rfl (by decide)
  · have h := (C5_codec_selection [("application/json", 1), ("text/xml", 2)]
      "").2.1 (by decide) (by decide)
    rw [h]
    decide
  · have h := (C5_codec_selection [("application/json", 1)]
      "application/json; charset=utf-8").2.2.1 (by decide)
    rw [h]
    decide

/-- When the name derivation succeeds (explicit name non-empty, or
derived type name exported), neither InvalidServiceName guard of
register fires. -/
theorem register_guards (rcvr : Receiver) (name : String)
    (hvalid : name = "" → isExported rcvr.typeName = true) :
    ¬ (name = "" ∧ isExported rcvr.typeName = false) ∧
    (if name = "" then rcvr.typeName else name) ≠ "" := by
  constructor
  · rintro ⟨h1, h2⟩
    rw [hvalid h1] at h2
    cases h2
  · by_cases hn : name = ""
    · rw [if_pos hn]
      exact isExported_ne_empty _ (hvalid hn)
    · rw [if_neg hn]
      exact hn

/-- C6: registering a second service under a name already present in
the registry fails with DuplicateServiceName and returns the registry
unchanged, so the first registration stays installed and resolvable.
The duplicate check and the insertion run inside one mutex-guarded
critical section in the source and are one atomic transition here. -/
theorem C6_duplicate_registration (m : ServiceRegistry) (rcvr : Receiver)
    (name : String) (passReq : Bool) (svc0 : Service) (sname : String)
    (hsname : (if name = "" then rcvr.typeName else name) = sname)
    (hvalid : name = "" → isExported rcvr.typeName = true)
    (hdup : lookupA m sname = some svc0)
    (hmeth : buildMethods passReq rcvr.methods ≠ []) :
    register m rcvr name passReq =
      (m, some (.duplicateServiceName sname)) ∧
    lookupA (register m rcvr name passReq).1 sname = some svc0 := by
  subst hsname
  obtain ⟨hc1, hc2⟩ := register_guards rcvr name hvalid
  have hsome : (lookupA m (if name = "" then rcvr.typeName else name)).isSome
      = true := by
    simp [hdup]
  have hreg : register m rcvr name passReq =
      (m, some (.duplicateServiceName
        (if name = "" then rcvr.typeName else name))) := by
    simp only [register]
    rw [if_neg hc1, if_neg hc2, if_neg hmeth, if_pos hsome]
  exact ⟨hreg, by rw [hreg]; exact hdup⟩

/-- C6 witness: re-registering the example receiver under the already
present name fails with DuplicateServiceName and the first service is
still found under that name. -/
theorem C6_duplicate_registration_witness :
    register exRegistry exReceiverTCP "Calc" false =
      (exRegistry, some (.duplicateServiceName "Calc")) ∧
    lookupA (register exRegistry exReceiverTCP "Calc" false).1 "Calc" =
      some exService := by
  have h := C6_duplicate_registration exRegistry exReceiverTCP "Calc" false
    exService "Calc" (by decide) (by decide) (by decide) (by decide)
  exact h

/-- C7: when zero members of the receiver survive the filter,
registration fails with NoSuitableMethods and returns the registry
unchanged, so resolution and hasMethod behave afterwards as if the
registration had never been attempted. -/
theorem C7_no_suitable_methods (m : ServiceRegistry) (rcvr : Receiver)
    (name : String) (passReq : Bool) (sname : String)
    (hsname : (if name = "" then rcvr.typeName else name) = sname)
    (hvalid : name = "" → isExported rcvr.typeName = true)
    (hzero : buildMethods passReq rcvr.methods = []) :
    register m rcvr name passReq = (m, some (.noSuitableMethods sname)) ∧
    (∀ q : String, get (register m rcvr name passReq).1 q = get m q) ∧
    (∀ q : String,
      hasMethod (register m rcvr name passReq).1 q = hasMethod m q) := by
  subst hsname
  obtain ⟨hc1, hc2⟩ := register_guards rcvr name hvalid
  have hreg : register m rcvr name passReq =
      (m, some (.noSuitableMethods
        (if name = "" then rcvr.typeName else name))) := by
    simp only [register]
    rw [if_neg hc1, if_neg hc2, if_pos hzero]
  exact ⟨hreg, fun q => by rw [hreg], fun q => by rw [hreg]⟩

/-- C7 witness: registering a receiver with no suitable methods fails
with NoSuitableMethods, and a later hasMethod for that service name
answers as on the untouched registry. -/
theorem C7_no_suitable_methods_witness :
    register [] exBareReceiver "" false =
      ([], some (.noSuitableMethods "Calc")) ∧
    hasMethod (register [] exBareReceiver "" false).1 "Calc.Add" =
      hasMethod [] "Calc.Add" := by
  have h := C7_no_suitable_methods [] exBareReceiver "" false "Calc"
    (by decide) (by decide) (by decide)
  exact ⟨h.1, h.2.2 "Calc.Add"⟩

/-- The hook-and-call phase contributes no after-hook event. -/
theorem countP_after_preEvents (s : Server) (r : HttpRequest)
    (method : String) (passReq : Bool) :
    List.countP isAfterEvent (preEvents s r method passReq) = 0 := by
  unfold preEvents
  cases hint : s.interceptFunc <;> by_cases hbf : s.hasBeforeFunc <;>
    simp [hbf, isAfterEvent]

/-- No after-hook event occurs in the hook-and-call phase. -/
theorem after_not_mem_preEvents (s : Server) (r : HttpRequest)
    (method : String) (passReq : Bool) (info : RequestInfo) :
    Event.afterCalled info ∉ preEvents s r method passReq := by
  unfold preEvents
  cases hint : s.interceptFunc <;> by_cases hbf : s.hasBeforeFunc <;>
    simp [hbf]

/-- When the before hook is registered, the hook-and-call phase calls
it with the possibly replaced request. -/
theorem before_mem_preEvents (s : Server) (r : HttpRequest)
    (method : String) (passReq : Bool) (hbf : s.hasBeforeFunc = true) :
    Event.beforeCalled
      { method := method, error := none,
        request := interceptedReq s r method, statusCode := 0 } ∈
      preEvents s r method passReq := by
  unfold preEvents
  cases hint : s.interceptFunc <;> simp [hbf]

/-- The hook-and-call phase always contains the method call, receiving
the possibly replaced request exactly when the service takes one. -/
theorem methodCalled_mem_preEvents (s : Server) (r : HttpRequest)
    (method : String) (passReq : Bool) :
    Event.methodCalled
        (if passReq then some (interceptedReq s r method) else none) ∈
      preEvents s r method passReq := by
  unfold preEvents
  cases hint : s.interceptFunc <;> by_cases hbf : s.hasBeforeFunc <;>
    simp [hbf]

/-- Past the argument decode, the trace starts with the hook-and-call
phase, whatever the call and encode outcomes. -/
theorem serveHTTP_trace_has_pre (s : Server) (r : HttpRequest) (o : Oracle)
    (hverb : s.supportedMethods.contains r.verb = true)
    (codec : Codec)
    (hsel : selectCodec s.codecs (stripContentType r.contentType) = some codec)
    (mname : String)
    (hm : o.methodResult = .ok mname)
    (svc : Service) (sm : ServiceMethod)
    (hget : get s.services mname = .ok (svc, sm))
    (hread : o.readResult = none) :
    ∃ tail : List Event,
      (serveHTTP s r o).2 = preEvents s r mname svc.passReq ++ tail := by
  have hmem : r.verb ∈ s.supportedMethods := by simpa using hverb
  cases hcall : o.callResult with
  | some msg =>
    exact ⟨[.errorResponse 200 codec (.serviceError msg)],
      by simp [serveHTTP, hmem, hsel, hm, hget, hread, hcall]⟩
  | none =>
    cases hw : o.writeResult with
    | some msg =>
      exact ⟨[.nosniffHeaderSet,
              .errorResponse 200 codec (.codecWriteResponse msg)],
        by simp [serveHTTP, hmem, hsel, hm, hget, hread, hcall, hw]⟩
    | none =>
      refine ⟨[.nosniffHeaderSet, .responseWritten codec] ++
        (if s.hasAfterFunc then
          [.afterCalled { method := mname, error := none,
                          request := interceptedReq s r mname,
                          statusCode := 200 }]
         else []), ?_⟩
      simp [serveHTTP, hverb, hmem, hsel, hm, hget, hread, hcall, hw]

/-- C8: the after hook fires exactly once per fully successful request
and never on any failure exit (including a reply-encode failure); its
RequestInfo carries error none and status 200; and in the trace it
comes directly after the successful response write. -/
theorem C8_after_hook (s : Server) (r : HttpRequest) (o : Oracle) :
    (List.countP isAfterEvent (serveHTTP s r o).2 =
      if s.hasAfterFunc && fullSuccess s r o then 1 else 0) ∧
    (∀ info : RequestInfo, Event.afterCalled info ∈ (serveHTTP s r o).2 →
      info.error = none ∧ info.statusCode = 200) ∧
    (∀ info : RequestInfo, Event.afterCalled info ∈ (serveHTTP s r o).2 →
      ∃ l : List Event, ∃ c : Codec,
        (serveHTTP s r o).2 =
          l ++ [Event.responseWritten c, Event.afterCalled info]) := by
  by_cases hverb : s.supportedMethods.contains r.verb
  · have hmem : r.verb ∈ s.supportedMethods := by simpa using hverb
    cases hsel : selectCodec s.codecs (stripContentType r.contentType) with
    | none =>
      rw [serveHTTP_unsupported s r o hverb hsel]
      simp [fullSuccess, hsel, isAfterEvent]
    | some codec =>
      cases hm : o.methodResult with
      | error msg =>
        simp [serveHTTP, hmem, hsel, hm, fullSuccess, hverb, isAfterEvent]
      | ok mname =>
        cases hget : get s.services mname with
        | error e =>
          simp [serveHTTP, hmem, hsel, hm, hget, fullSuccess, hverb,
                exceptIsOk, isAfterEvent]
        | ok pair =>
          obtain ⟨svc, sm⟩ := pair
          cases hread : o.readResult with
          | some msg =>
            simp [serveHTTP, hmem, hsel, hm, hget, hread, fullSuccess, hverb,
                  exceptIsOk, isAfterEvent]
          | none =>
            cases hcall : o.callResult with
            | some msg =>
              simp [serveHTTP, hmem, hsel, hm, hget, hread, hcall,
                    fullSuccess, hverb, exceptIsOk, isAfterEvent,
                    List.countP_append, countP_after_preEvents,
                    after_not_mem_preEvents]
            | none =>
              cases hw : o.writeResult with
              | some msg =>
                simp [serveHTTP, hmem, hsel, hm, hget, hread, hcall, hw,
                      fullSuccess, hverb, exceptIsOk, isAfterEvent,
                      List.countP_append, countP_after_preEvents,
                      after_not_mem_preEvents]
              | none =>
                have hfs : fullSuccess s r o = true := by
                  simp [fullSuccess, hverb, hmem, hsel, hm, hget, hread,
                        hcall, hw, exceptIsOk]
                have htrace : (serveHTTP s r o).2 =
                    preEvents s r mname svc.passReq ++
                    [Event.nosniffHeaderSet, Event.responseWritten codec] ++
                    (if s.hasAfterFunc then
                      [Event.afterCalled { method := mname, error := none,
                                           request := interceptedReq s r mname,
                                           statusCode := 200 }]
                     else []) := by
                  simp [serveHTTP, hmem, hsel, hm, hget, hread, hcall, hw]
                rw [htrace]
                by_cases haf : s.hasAfterFunc
                · refine ⟨?_, ?_, ?_⟩
                  · simp [haf, hfs, List.countP_append,
                          countP_after_preEvents, isAfterEvent]
                  · intro info hin
                    simp [haf, after_not_mem_preEvents] at hin
                    subst hin
                    exact ⟨rfl, rfl⟩
                  · intro info hin
                    simp [haf, after_not_mem_preEvents] at hin
                    subst hin
                    refine ⟨preEvents s r mname svc.passReq ++
                      [Event.nosniffHeaderSet], codec, ?_⟩
                    simp [haf, List.append_assoc]
                · refine ⟨?_, ?_, ?_⟩
                  · simp [haf, List.countP_append,
                          countP_after_preEvents, isAfterEvent]
                  · intro info hin
                    simp [haf, after_not_mem_preEvents] at hin
                  · intro info hin
                    simp [haf, after_not_mem_preEvents] at hin
  · have hvf : s.supportedMethods.contains r.verb = false := by
      simpa using hverb
    have hnmem : r.verb ∉ s.supportedMethods := by simpa using hverb
    rw [serveHTTP_not_allowed s r o hvf]
    simp [fullSuccess, hvf, hnmem, isAfterEvent]

/-- C8 witness: on the example all-success request the after hook runs
once; making the reply encode fail drops it to zero even though the
method itself succeeded. -/
theorem C8_after_hook_witness :
    List.countP isAfterEvent (serveHTTP exServer exRequest exOracle).2 = 1 ∧
    List.countP isAfterEvent
      (serveHTTP exServer exRequest
        { exOracle with writeResult := some "boom" }).2 = 0 := by
  constructor
  · have h := (C8_after_hook exServer exRequest exOracle).1
    rw [h]
    decide
  · have h := (C8_after_hook exServer exRequest
      { exOracle with writeResult := some "boom" }).1
    rw [h]
    decide

/-- C9: when the intercept hook returns a non-null replacement, that
exact request value is the one the before hook receives and the one
passed to the method (when the service takes the request); when the
hook returns null or no hook is registered, the original request is
used unchanged in both places. -/
theorem C9_intercept_replacement (s : Server) (r : HttpRequest) (o : Oracle)
    (mname : String) (svc : Service) (sm : ServiceMethod) (codec : Codec)
    (hverb : s.supportedMethods.contains r.verb = true)
    (hsel : selectCodec s.codecs (stripContentType r.contentType) = some codec)
    (hm : o.methodResult = .ok mname)
    (hget : get s.services mname = .ok (svc, sm))
    (hread : o.readResult = none) :
    (∀ f : RequestInfo → Option HttpRequest, ∀ req : HttpRequest,
      s.interceptFunc = some f →
      f { method := mname, error := none, request := r, statusCode := 0 } =
        some req →
      (s.hasBeforeFunc = true →
        Event.beforeCalled { method := mname, error := none, request := req,
                             statusCode := 0 } ∈ (serveHTTP s r o).2) ∧
      (svc.passReq = true →
        Event.methodCalled (some req) ∈ (serveHTTP s r o).2)) ∧
    (∀ f : RequestInfo → Option HttpRequest,
      s.interceptFunc = some f →
      f { method := mname, error := none, request := r, statusCode := 0 } =
        none →
      (s.hasBeforeFunc = true →
        Event.beforeCalled { method := mname, error := none, request := r,
                             statusCode := 0 } ∈ (serveHTTP s r o).2) ∧
      (svc.passReq = true →
        Event.methodCalled (some r) ∈ (serveHTTP s r o).2)) ∧
    (s.interceptFunc = none →
      (s.hasBeforeFunc = true →
        Event.beforeCalled { method := mname, error := none, request := r,
                             statusCode := 0 } ∈ (serveHTTP s r o).2) ∧
      (svc.passReq = true →
        Event.methodCalled (some r) ∈ (serveHTTP s r o).2)) := by
  obtain ⟨tail, htail⟩ :=
    serveHTTP_trace_has_pre s r o hverb codec hsel mname hm svc sm hget hread
  rw [htail]
  refine ⟨?_, ?_, ?_⟩
  · intro f req hint hf
    have hir : interceptedReq s r mname = req := by
      simp [interceptedReq, hint, hf]
    constructor
    · intro hbf
      have h := before_mem_preEvents s r mname svc.passReq hbf
      rw [hir] at h
      exact List.mem_append_left tail h
    · intro hpr
      rw [hpr]
      have h := methodCalled_mem_preEvents s r mname true
      rw [if_pos rfl, hir] at h
      exact List.mem_append_left tail h
  · intro f hint hf
    have hir : interceptedReq s r mname = r := by
      simp [interceptedReq, hint, hf]
    constructor
    · intro hbf
      have h := before_mem_preEvents s r mname svc.passReq hbf
      rw [hir] at h
      exact List.mem_append_left tail h
    · intro hpr
      rw [hpr]
      have h := methodCalled_mem_preEvents s r mname true
      rw [if_pos rfl, hir] at h
      exact List.mem_append_left tail h
  · intro hint
    have hir : interceptedReq s r mname = r := by
      simp [interceptedReq, hint]
    constructor
    · intro hbf
      have h := before_mem_preEvents s r mname svc.passReq hbf
      rw [hir] at h
      exact List.mem_append_left tail h
    · intro hpr
      rw [hpr]
      have h := methodCalled_mem_preEvents s r mname true
      rw [if_pos rfl, hir] at h
      exact List.mem_append_left tail h

/-- C9 witness: on a request-taking service with an intercept hook
returning exReplacement, the before hook and the method call both
receive exactly exReplacement. -/
theorem C9_intercept_replacement_witness :
    Event.beforeCalled { method := "CalcH.Add", error := none,
                         request := exReplacement, statusCode := 0 } ∈
      (serveHTTP exServerH exRequest exOracleH).2 ∧
    Event.methodCalled (some exReplacement) ∈
      (serveHTTP exServerH exRequest exOracleH).2 := by
  have h := (C9_intercept_replacement exServerH exRequest exOracleH
    "CalcH.Add" exServiceHTTP exServiceMethod 1
    (by decide) (by decide) (by decide) (by decide) (by decide)).1
    (fun _ => some exReplacement) exReplacement rfl rfl
  exact ⟨h.1 rfl, h.2 rfl⟩

end Rpc
